import Mathlib

/-!
Verification of the hyperdrive request router.

This file shallowly embeds the routing core of the hyperdrive crate:

* the dispatcher and construction pipeline generated by
  `derive/src/from_request/mod.rs` (`derive_from_request`, `construct_variant`),
* the runtime `Error` type of `src/error.rs`.

The derive's `parse` submodule (path-pattern parsing, regex generation, the
overlap checker and the implicit-`HEAD` method map) is not part of the
provided sources; those pieces are modelled from the specification and are
marked as such in their doc comments.

Machine integers of the source (e.g. `u32` path fields) are modelled as `Nat`
with an explicit range check.
-/

deriving instance DecidableEq for Except

namespace Hyperdrive

/-- HTTP methods, as used by route attributes and `http::Method`. -/
inductive Method where
  | GET
  | POST
  | HEAD
  | PUT
  | DELETE
  | PATCH
  | OPTIONS
deriving DecidableEq

/-- The string form of a method (`http::Method::as_str`). -/
def Method.asStr : Method → String
  | .GET => "GET"
  | .POST => "POST"
  | .HEAD => "HEAD"
  | .PUT => "PUT"
  | .DELETE => "DELETE"
  | .PATCH => "PATCH"
  | .OPTIONS => "OPTIONS"

/-- One segment of a parsed path pattern: a literal, a `{name}` placeholder
matching one path segment, or a terminal `{name...}` catch-all. -/
inductive Segment where
  | literal (text : String)
  | placeholder (name : String)
  | catchAll (name : String)
deriving DecidableEq

/-- A parsed path pattern: the ordered sequence of its segments. -/
abbrev Pattern := List Segment

/-- Splits a character list on `/` (the semantics of `str::split('/')`),
written structurally so that concrete paths evaluate inside the kernel. -/
def splitSegs : List Char → List (List Char)
  | [] => [[]]
  | c :: cs =>
    if c = '/' then [] :: splitSegs cs
    else match splitSegs cs with
      | [] => [[c]]
      | x :: xs => (c :: x) :: xs

/-- Splits a request path (or a pattern string) on `/`, dropping the empty
segment produced by the mandatory leading slash. `"/users/42"` becomes
`["users", "42"]` and `"/"` becomes `[""]`. -/
def splitPath (p : String) : List String :=
  let segs := (splitSegs p.toList).map (fun cs => String.mk cs)
  match p.toList with
  | '/' :: _ => segs.drop 1
  | _ => segs

/-- Rejoins the path segments consumed by a catch-all with `/`, mirroring the
single `(.+)` capture of the generated regex. -/
def joinPath : List String → String
  | [] => ""
  | [s] => s
  | s :: ss => s ++ "/" ++ joinPath ss

/-- Modelled from the spec: `Pattern.matches(path) -> Option<Captures>`
(§4.1; the regex construction lives in the derive's `parse` module, which is
not among the provided sources). A literal segment must equal the path
segment exactly, a placeholder matches exactly one non-empty segment, and a
catch-all matches the non-empty joined tail of the path. -/
def segMatch : Pattern → List String → Option (List String)
  | [], [] => some []
  | [], _ :: _ => none
  | .literal _ :: _, [] => none
  | .placeholder _ :: _, [] => none
  | .catchAll _ :: _, [] => none
  | .catchAll _ :: _, s :: ss =>
    if joinPath (s :: ss) = "" then none else some [joinPath (s :: ss)]
  | .literal l :: ps, s :: ss => if s = l then segMatch ps ss else none
  | .placeholder _ :: ps, s :: ss =>
    if s = "" then none else (segMatch ps ss).map (fun caps => s :: caps)

/-- Number of capture groups of a pattern's regex: one per placeholder or
catch-all (`regex.captures_len()` in the generated code). -/
def countCaptures (p : Pattern) : Nat :=
  p.countP (fun s => match s with
    | .literal _ => false
    | _ => true)

/-- Construction-time pattern errors (spec §7). -/
inductive PatternError where
  | catchAllNotTerminal
  | duplicatePlaceholder
deriving DecidableEq

/-- Modelled from the spec: parsing one pattern segment (§4.1) — `{name}` is
a placeholder, `{name...}` a catch-all, anything else a literal. The parsing
code itself is in the derive's `parse` module, not among the provided
sources. -/
def parseSegChars (cs : List Char) : Segment :=
  match cs with
  | '{' :: rest =>
    match rest.reverse with
    | '}' :: '.' :: '.' :: '.' :: nameRev => .catchAll (String.mk nameRev.reverse)
    | '}' :: nameRev => .placeholder (String.mk nameRev.reverse)
    | _ => .literal (String.mk cs)
  | _ => .literal (String.mk cs)

/-- Parses one pattern segment from a string. -/
def parseSeg (s : String) : Segment :=
  parseSegChars s.toList

/-- The placeholder/catch-all names of a pattern, in order. -/
def patternNames (p : Pattern) : List String :=
  p.filterMap (fun s => match s with
    | .literal _ => none
    | .placeholder n => some n
    | .catchAll n => some n)

/-- Whether a list of names contains a duplicate. -/
def hasDup : List String → Bool
  | [] => false
  | s :: ss => ss.contains s || hasDup ss

/-- Whether every catch-all of a pattern is its final segment. -/
def catchAllTerminal : Pattern → Bool
  | [] => true
  | [_] => true
  | .catchAll _ :: _ :: _ => false
  | _ :: rest => catchAllTerminal rest

/-- Modelled from the spec: `Pattern::parse` (§4.1, §7; implemented by the
derive's `parse` module, which is not among the provided sources). Splits on
`/`, then fails when a catch-all is followed by any further segment or a
placeholder name is duplicated. -/
def parsePattern (path : String) : Except PatternError Pattern :=
  let segs := (splitPath path).map parseSeg
  if !catchAllTerminal segs then .error .catchAllNotTerminal
  else if hasDup (patternNames segs) then .error .duplicatePlaceholder
  else .ok segs

/-- Modelled from the spec: the OverlapChecker's pairwise test (§4.3; the
checker lives in the derive's `parse` module, which is not among the
provided sources). Walks both patterns position by position; a literal
mismatch at a common position is decisive (no overlap), a catch-all absorbs
the remaining positions of the other side, and any other combination is
overlap-compatible. -/
def overlaps : Pattern → Pattern → Bool
  | [], [] => true
  | [], _ :: _ => false
  | _ :: _, [] => false
  | .catchAll _ :: _, _ :: _ => true
  | .literal _ :: _, .catchAll _ :: _ => true
  | .placeholder _ :: _, .catchAll _ :: _ => true
  | .literal a :: ps, .literal b :: qs => a == b && overlaps ps qs
  | .literal _ :: ps, .placeholder _ :: qs => overlaps ps qs
  | .placeholder _ :: ps, .literal _ :: qs => overlaps ps qs
  | .placeholder _ :: ps, .placeholder _ :: qs => overlaps ps qs

/-- A universal value type standing in for the field values a constructed
variant can hold (integers, strings, optional values, unit). -/
inductive Val where
  | vNat (n : Nat)
  | vStr (s : String)
  | vNone
  | vSome (v : Val)
  | vUnit
deriving DecidableEq

/-- The runtime errors produced by the generated `from_request` code
(`ErrorKind` in the derive's output): placeholder parse failure, query
decode failure, `405` with allowed methods, `404`, body decode failure, and
opaque guard failures (arbitrary `BoxedError`s in the source). -/
inductive HError where
  | pathSegment
  | queryParam
  | wrongMethod (allowed : List Method)
  | noMatchingRoute
  | badBody
  | guardFail (msg : String)
deriving DecidableEq

/-- Observable steps of one construction pipeline, used to state ordering
properties of the `and_then` chain built by `construct_variant`. -/
inductive Event where
  | pathParse
  | queryDecode
  | guardRun (i : Nat)
  | bodyDecode
  | forwardRun
deriving DecidableEq

/-- The header-only request view (`http::Request<()>`) handed to guards. -/
structure ReqHead where
  method : Method
  path : String
  query : Option String
  headers : List (String × String)

/-- An incoming request (`http::Request<hyper::Body>`), with the body
modelled as a string. -/
structure Request where
  method : Method
  path : String
  query : Option String
  headers : List (String × String)
  body : String

/-- Splits the request into its header-only view, as `request.into_parts()`
followed by `Request::from_parts(parts, ())` does. -/
def Request.head (r : Request) : ReqHead :=
  ⟨r.method, r.path, r.query, r.headers⟩

/-- A path-bound field: its name and its `FromStr`-style parser
(`none` models a failed `from_str`). -/
structure FieldParser where
  name : String
  parse : String → Option Val

/-- A guard field: its name and its `Guard::from_request`, which sees only
the header view. -/
structure GuardSpec where
  name : String
  run : ReqHead → Except HError Val

/-- Everything `construct_variant` needs about one enum variant: its
placeholder-bound fields in placeholder order, the optional `#[query_params]`
field and decoder, the guard fields in declaration order, the optional
`#[body]` field and decoder, and the optional `#[forward]` field with the
nested `FromRequest` it delegates to. -/
structure VariantSpec where
  variantId : Nat
  placeholders : List FieldParser
  queryDecoder : Option (String × (String → Option Val))
  guards : List GuardSpec
  body : Option (String × (String → Except HError Val))
  fwd : Option (String × (Request → Except HError Val))

/-- One `(method, variant)` route entry of a route set. -/
structure Entry where
  method : Method
  variant : VariantSpec

/-- All route entries sharing one pattern (one entry of the derive's
`PathMap`). -/
structure RouteSet where
  pattern : Pattern
  entries : List Entry

/-- The compiled routing table: the route sets in declaration order plus the
optional fallback (`#[forward]`-only) variant. -/
structure Table where
  routes : List RouteSet
  fallback : Option VariantSpec

/-- The value assembled by a successful construction pipeline: the variant
plus its field assignments. -/
structure Constructed where
  variantId : Nat
  fields : List (String × Val)
deriving DecidableEq

/-- Outcome of route resolution (spec §4.4 `Resolution`). -/
inductive Resolution where
  | matched (variantId : Nat) (captures : List String)
  | wrongMethod (allowed : List Method)
  | noMatch
deriving DecidableEq

/-- The per-variant `variant_matches_path` closure of the generated code:
`true` when the variant's route has no placeholders, otherwise the
conjunction of `FromStr::is_ok` over all captured segments. -/
def variantMatchesPath (v : VariantSpec) (caps : List String) : Bool :=
  if v.placeholders.isEmpty then true
  else (List.zip v.placeholders caps).all (fun pc => (pc.1.parse pc.2).isSome)

/-- The `find_accepted_methods` expression of the generated code: with no
capture groups the statically known method list of the route set, otherwise
the methods of exactly those entries whose placeholder parses succeed on the
captured segments. -/
def findAccepted (rs : RouteSet) (segs : List String) : List Method :=
  if countCaptures rs.pattern == 0 then
    rs.entries.map (fun e => e.method)
  else
    let caps := (segMatch rs.pattern segs).getD []
    (rs.entries.filter (fun e => variantMatchesPath e.variant caps)).map (fun e => e.method)

/-- Route resolution as performed by the generated `from_request` body:
the first pattern of the `RegexSet` matching the path selects the route set;
a method entry yields `matched` with the captures, a missing entry yields
`wrongMethod` with the accepted methods, and no pattern match yields
`noMatch`. -/
def resolve (routes : List RouteSet) (m : Method) (path : String) : Resolution :=
  let segs := splitPath path
  match routes.find? (fun rs => (segMatch rs.pattern segs).isSome) with
  | none => .noMatch
  | some rs =>
    match rs.entries.find? (fun e => e.method == m) with
    | some e => .matched e.variant.variantId ((segMatch rs.pattern segs).getD [])
    | none => .wrongMethod (findAccepted rs segs)

/-- The raw query string handed to `serde_urlencoded`:
`request.uri().query().unwrap_or("")`. -/
def rawQuery (req : Request) : String :=
  req.query.getD ""

/-- Sequential `FromStr` parsing of the captured segments, aborting with a
`PathSegment` error at the first failure (`construct_variant`'s placeholder
block). -/
def parsePlaceholders : List FieldParser → List String → Except HError (List (String × Val))
  | [], _ => .ok []
  | fp :: rest, c :: cs =>
    match fp.parse c with
    | none => .error .pathSegment
    | some v => (parsePlaceholders rest cs).map (fun fields => (fp.name, v) :: fields)
  | _ :: _, [] => .error .pathSegment

/-- Events emitted by the placeholder stage: nothing when the variant's
route has no placeholders (no parsing code is generated then). -/
def phEvents (v : VariantSpec) : List Event :=
  if v.placeholders.isEmpty then [] else [.pathParse]

/-- The placeholder-parsing stage of the pipeline. -/
def phStage (v : VariantSpec) (caps : List String) : Except HError (List (String × Val)) :=
  if v.placeholders.isEmpty then .ok []
  else parsePlaceholders v.placeholders caps

/-- Events emitted by the query stage: nothing when no `#[query_params]`
field is declared. -/
def queryEvents (v : VariantSpec) : List Event :=
  if v.queryDecoder.isSome then [.queryDecode] else []

/-- The query-decoding stage: decodes the raw query string (empty when the
URI has none), aborting with a `QueryParam` error on failure. -/
def queryStage (v : VariantSpec) (req : Request) : Except HError (List (String × Val)) :=
  match v.queryDecoder with
  | none => .ok []
  | some (nm, dec) =>
    match dec (rawQuery req) with
    | some val => .ok [(nm, val)]
    | none => .error .queryParam

/-- Runs the declared guards left to right (the generated code wraps them in
reverse so they evaluate in declaration order), short-circuiting at the
first failure. Returns the events emitted and the guard fields produced. -/
def runGuards : List GuardSpec → ReqHead → Nat → List Event × Except HError (List (String × Val))
  | [], _, _ => ([], .ok [])
  | g :: rest, h, i =>
    match g.run h with
    | .error e => ([.guardRun i], .error e)
    | .ok val =>
      let r := runGuards rest h (i + 1)
      (.guardRun i :: r.1, r.2.map (fun fields => (g.name, val) :: fields))

/-- The final asynchronous stage: decode the `#[body]` field, or recombine
the request and run the `#[forward]` field's nested `FromRequest` (the two
are mutually exclusive by construction-time validation), or do nothing. -/
def tailStage (v : VariantSpec) (req : Request) : List Event × Except HError (List (String × Val))  :=
  match v.body with
  | some (nm, dec) => ([.bodyDecode], (dec req.body).map (fun val => [(nm, val)]))
  | none =>
    match v.fwd with
    | some (nm, f) => ([.forwardRun], (f req).map (fun val => [(nm, val)]))
    | none => ([], .ok [])

/-- The construction pipeline generated by `construct_variant`: placeholder
parsing, then query decoding, then the guards in declaration order, then
body decoding or forwarding, then assembly of the final value; every failure
aborts the chain immediately. -/
def constructVariant (v : VariantSpec) (req : Request) (caps : List String) :
    List Event × Except HError Constructed :=
  match phStage v caps with
  | .error e => (phEvents v, .error e)
  | .ok phFields =>
    match queryStage v req with
    | .error e => (phEvents v ++ queryEvents v, .error e)
    | .ok qFields =>
      match runGuards v.guards req.head 0 with
      | (gevs, .error e) => (phEvents v ++ queryEvents v ++ gevs, .error e)
      | (gevs, .ok gFields) =>
        match tailStage v req with
        | (tevs, .error e) => (phEvents v ++ queryEvents v ++ gevs ++ tevs, .error e)
        | (tevs, .ok tFields) =>
          (phEvents v ++ queryEvents v ++ gevs ++ tevs,
           .ok ⟨v.variantId, phFields ++ qFields ++ gFields ++ tFields⟩)

/-- The dispatcher generated by `derive_from_request`: the first matching
pattern selects the route set; a method entry runs that variant's pipeline;
a missing entry either merges the accepted methods with a failed fallback's
`WrongMethod` or reports `WrongMethod` directly; no pattern match runs the
fallback or reports `NoMatchingRoute`. -/
def fromRequest (t : Table) (req : Request) : List Event × Except HError Constructed :=
  let segs := splitPath req.path
  match t.routes.find? (fun rs => (segMatch rs.pattern segs).isSome) with
  | some rs =>
    match rs.entries.find? (fun e => e.method == req.method) with
    | some e => constructVariant e.variant req ((segMatch rs.pattern segs).getD [])
    | none =>
      match t.fallback with
      | none => ([], .error (.wrongMethod (findAccepted rs segs)))
      | some fb =>
        let r := constructVariant fb req []
        (r.1,
         match r.2 with
         | .error (.wrongMethod inner) => .error (.wrongMethod (findAccepted rs segs ++ inner))
         | other => other)
  | none =>
    match t.fallback with
    | some fb => constructVariant fb req []
    | none => ([], .error .noMatchingRoute)

/-- Modelled from the spec: the derive creates a `HEAD` route for every
defined `GET` route unless one is defined explicitly (documented on
`FromRequest` in `src/lib.rs`; the method map is built by the derive's
`parse` module, which is not among the provided sources). -/
def addImplicitHead (entries : List Entry) : List Entry :=
  if entries.any (fun e => e.method == Method.HEAD) then entries
  else
    match entries.find? (fun e => e.method == Method.GET) with
    | some g => entries ++ [⟨Method.HEAD, g.variant⟩]
    | none => entries

/-- Models `u32::from_str` on ASCII-digit inputs: the accumulated value if
every character is a digit and the result fits in 32 bits, `none`
otherwise. -/
def parseNatAux : List Char → Nat → Option Nat
  | [], acc => some acc
  | c :: cs, acc =>
    if 48 ≤ c.toNat && c.toNat ≤ 57 then parseNatAux cs (acc * 10 + (c.toNat - 48))
    else none

/-- The `FromStr` implementation of a `u32`-typed path field. -/
def parseU32 (s : String) : Option Nat :=
  match s.toList with
  | [] => none
  | cs =>
    match parseNatAux cs 0 with
    | some n => if n < 4294967296 then some n else none
    | none => none

/-- The runtime error type of `src/error.rs`: an HTTP status code, the
allowed methods (only meaningful for `405`), and an optional source error
(modelled as its message). -/
structure Error where
  status : Nat
  allowed_methods : List Method
  source : Option String

/-- `Error::from_status`: just the given status, no allowed methods. -/
def Error.from_status (status : Nat) : Error :=
  ⟨status, [], none⟩

/-- `Error::with_source`: the given status plus an underlying error. -/
def Error.with_source (status : Nat) (src : String) : Error :=
  ⟨status, [], some src⟩

/-- `Error::wrong_method`: status `405 Method Not Allowed` plus the allowed
method list. -/
def Error.wrong_method (allowed : List Method) : Error :=
  ⟨405, allowed, none⟩

/-- `Error::http_status`. -/
def Error.http_status (e : Error) : Nat :=
  e.status

/-- `Vec<&str>::join(", ")`, written structurally. -/
def joinComma : List String → String
  | [] => ""
  | [s] => s
  | s :: ss => s ++ ", " ++ joinComma ss

/-- The header-only HTTP response (`http::Response<()>`) built by
`Error::response`. -/
structure HttpResponse where
  status : Nat
  headers : List (String × String)
deriving DecidableEq

/-- `Error::response`: a response with the error's status; exactly when the
status is `405 Method Not Allowed` it carries an `Allow` header joining the
stored methods with `", "`. -/
def Error.response (e : Error) : HttpResponse :=
  { status := e.http_status
    headers :=
      if e.status == 405 then [("Allow", joinComma (e.allowed_methods.map Method.asStr))]
      else [] }

/-- `Error::allowed_methods`: the stored list for a `405` error, `none` for
any other status. (The structure field keeps the source's field name, so the
accessor is camel-cased here.) -/
def Error.allowedMethods (e : Error) : Option (List Method) :=
  if e.status == 405 then some e.allowed_methods else none

/-- A variant with one `u32`-typed path field `id` and nothing else
(`User { id: u32 }` under `#[get("/users/{id}")]`). -/
def userVariant : VariantSpec :=
  { variantId := 0
    placeholders := [⟨"id", fun s => (parseU32 s).map Val.vNat⟩]
    queryDecoder := none
    guards := []
    body := none
    fwd := none }

/-- A variant with one `String`-typed path field `name` (every string
parses). -/
def strVariant : VariantSpec :=
  { variantId := 1
    placeholders := [⟨"name", fun s => some (Val.vStr s)⟩]
    queryDecoder := none
    guards := []
    body := none
    fwd := none }

/-- The pattern of `"/users/{id}"`. -/
def usersPattern : Pattern :=
  [Segment.literal "users", Segment.placeholder "id"]

/-- Table declaring only `GET /users/{id}` with a `u32` field. -/
def usersTable : Table :=
  { routes := [⟨usersPattern, [⟨Method.GET, userVariant⟩]⟩]
    fallback := none }

/-- The route set sharing `"/users/{id}"` between `GET` (u32 field) and
`POST` (String field), as in the spec's method-aggregation example. -/
def sharedRS : RouteSet :=
  ⟨usersPattern, [⟨Method.GET, userVariant⟩, ⟨Method.POST, strVariant⟩]⟩

/-- Table holding only `sharedRS`. -/
def sharedTable : Table :=
  { routes := [sharedRS]
    fallback := none }

/-- A GET request for `/users/42`. -/
def req42 : Request :=
  ⟨Method.GET, "/users/42", none, [], ""⟩

/-- A GET request for `/users/abc`. -/
def reqAbc : Request :=
  ⟨Method.GET, "/users/abc", none, [], ""⟩

/-- A variant with no fields at all (`Index` under `#[get("/x")]`). -/
def unitVariant : VariantSpec :=
  { variantId := 2
    placeholders := []
    queryDecoder := none
    guards := []
    body := none
    fwd := none }

/-- The fallback variant of the C3 witness: a `#[forward]` field whose
nested `FromRequest` rejects every request with `WrongMethod([PUT])`. -/
def fbVariant : VariantSpec :=
  { variantId := 9
    placeholders := []
    queryDecoder := none
    guards := []
    body := none
    fwd := some ("inner", fun _ => .error (.wrongMethod [Method.PUT])) }

/-- The route set declaring only `GET /x`. -/
def xRS : RouteSet :=
  ⟨[Segment.literal "x"], [⟨Method.GET, unitVariant⟩]⟩

/-- Table with `GET /x` and the rejecting fallback. -/
def fbTable : Table :=
  { routes := [xRS]
    fallback := some fbVariant }

/-- A POST request for `/x`. -/
def reqPostX : Request :=
  ⟨Method.POST, "/x", none, [], ""⟩

/-- The route set of the C9 witness: `GET /users` with the implicit `HEAD`
entry added. -/
def headRS : RouteSet :=
  ⟨[Segment.literal "users"], addImplicitHead [⟨Method.GET, unitVariant⟩]⟩

/-- Table holding only `headRS`. -/
def headTable : Table :=
  { routes := [headRS]
    fallback := none }

/-- A HEAD request for `/users`. -/
def reqHeadUsers : Request :=
  ⟨Method.HEAD, "/users", none, [], ""⟩

/-- Modelled from the spec: `serde_urlencoded` deserialization into an
`Option`-typed `#[query_params]` field — the empty query string decodes to
`None`, a non-empty one to `Some` of the inner decoding (the `FromRequest`
docs in `src/lib.rs`: `GET /users` stores `None` in the field). -/
def optionQueryDecoder (inner : String → Option Val) : String → Option Val :=
  fun s => if s = "" then some Val.vNone else (inner s).map Val.vSome

/-- The C10 witness variant: only a `#[query_params]` field `pagination`
with the `Option`-typed decoder. -/
def queryVariant : VariantSpec :=
  { variantId := 3
    placeholders := []
    queryDecoder := some ("pagination", optionQueryDecoder (fun _ => none))
    guards := []
    body := none
    fwd := none }

/-- A GET request for `/users` with no query string. -/
def reqNoQuery : Request :=
  ⟨Method.GET, "/users", none, [], ""⟩

/-- Modelled from the spec: the OverlapChecker's pass over all route sets
(§4.3) — every unordered pair of declared patterns must be overlap-free for
the table to compile (the checker lives in the derive's `parse` module,
which is not among the provided sources). -/
def checkOverlapList : List RouteSet → Bool
  | [] => true
  | rs :: rest =>
    rest.all (fun r => !(overlaps rs.pattern r.pattern)) && checkOverlapList rest

/-- Two non-overlapping literal route sets for the C4 witness. -/
def twoRoutes : List RouteSet :=
  [⟨[Segment.literal "a"], []⟩, ⟨[Segment.literal "b"], []⟩]

/-- A guard that always succeeds. -/
def okGuard : GuardSpec :=
  ⟨"session", fun _ => .ok Val.vUnit⟩

/-- A guard that always fails. -/
def badGuard : GuardSpec :=
  ⟨"admin", fun _ => .error (.guardFail "denied")⟩

/-- The C5 witness variant: two guards, declared `okGuard` then
`badGuard`, plus a body field that must never be decoded. -/
def guardedVariant : VariantSpec :=
  { variantId := 4
    placeholders := []
    queryDecoder := none
    guards := [okGuard, badGuard]
    body := some ("data", fun _ => .ok Val.vUnit)
    fwd := none }

/-- A GET request for `/g`. -/
def reqGuard : Request :=
  ⟨Method.GET, "/g", none, [], ""⟩

example : parsePattern "/users/{id}" =
    .ok [Segment.literal "users", Segment.placeholder "id"] := by decide

example : segMatch [Segment.literal "users", Segment.placeholder "id"] (splitPath "/users/42") =
    some ["42"] := by decide

example : segMatch [Segment.literal "static", Segment.catchAll "p"] (splitPath "/static/a/b") =
    some ["a/b"] := by decide

example : overlaps [Segment.literal "0"] [Segment.placeholder "ph"] = true := by decide

example : overlaps [Segment.literal "a"] [Segment.literal "b"] = false := by decide

example : parseU32 "42" = some 42 := by decide

example : parseU32 "abc" = none := by decide

example : resolve usersTable.routes Method.GET "/users/42" = .matched 0 ["42"] := by decide

example : fromRequest usersTable req42 =
    ([Event.pathParse], .ok ⟨0, [("id", Val.vNat 42)]⟩) := by decide

example : fromRequest usersTable reqAbc = ([Event.pathParse], .error .pathSegment) := by decide

example : resolve sharedTable.routes Method.PUT "/users/abc" =
    .wrongMethod [Method.POST] := by decide

/-- C1 (counterexample): on a table declaring only `GET /users/{id}` with a
`u32` field, dispatching `GET /users/abc` does not yield the
`NoMatchingRoute` error. -/
theorem parse_failure_not_no_matching_route :
    (fromRequest usersTable reqAbc).2 ≠ Except.error HError.noMatchingRoute := by
  decide

/-- C1 (amended): on a table declaring only `GET /users/{id}` with a `u32`
field, dispatching `GET /users/abc` structurally selects the route (the
placeholder captures `"abc"`) and then fails during construction with a
`PathSegment` error, because placeholder parsing is deferred to the
construction pipeline of the one selected route. -/
theorem parse_failure_yields_path_segment :
    fromRequest usersTable reqAbc = ([Event.pathParse], .error .pathSegment) := by
  decide

/-- C6: on a table with `GET /users/{id}` (integer-typed `id`), dispatching
`GET /users/42` resolves to that route with the single capture `"42"`, and
the construction pipeline assembles a value whose `id` field is the integer
`42`. -/
theorem round_trip_users_42 :
    resolve usersTable.routes Method.GET "/users/42" = .matched 0 ["42"] ∧
    fromRequest usersTable req42 = ([Event.pathParse], .ok ⟨0, [("id", Val.vNat 42)]⟩) := by
  decide

/-- C7: a pattern in which a catch-all placeholder is followed by any
further segment is rejected at table-construction time with the
terminal-catch-all error; in particular both `"/a/{rest...}/b"` and
`"/a/{x}/{rest...}/{y}"` are rejected. -/
theorem catch_all_terminality :
    parsePattern "/a/{rest...}/b" = .error .catchAllNotTerminal ∧
    parsePattern "/a/{x}/{rest...}/{y}" = .error .catchAllNotTerminal := by
  decide

/-- C8: `Error::wrong_method` constructs an error of HTTP status
`405 Method Not Allowed`, and `Error::response` carries an `Allow` header
listing exactly the stored allowed methods, in order, precisely when the
error's status is 405; any other status gets no `Allow` header. -/
theorem wrong_method_status_and_allow_header :
    (∀ ms : List Method, (Error.wrong_method ms).http_status = 405) ∧
    (∀ e : Error, e.http_status = 405 →
      e.response.headers = [("Allow", joinComma (e.allowed_methods.map Method.asStr))]) ∧
    (∀ e : Error, e.http_status ≠ 405 → e.response.headers = []) := by
  refine ⟨fun ms => rfl, fun e h => ?_, fun e h => ?_⟩ <;>
    simp [Error.response, Error.http_status] at h ⊢ <;> simp [h]

/-- Witness for C8: a concrete `405` carries `Allow: GET, POST`, and a
concrete `404` has no headers. -/
theorem wrong_method_status_and_allow_header_witness :
    (Error.wrong_method [Method.GET, Method.POST]).http_status = 405 ∧
    (Error.wrong_method [Method.GET, Method.POST]).response.headers = [("Allow", "GET, POST")] ∧
    (Error.from_status 404).response.headers = [] := by
  refine ⟨wrong_method_status_and_allow_header.1 [Method.GET, Method.POST], ?_, ?_⟩
  · have h := wrong_method_status_and_allow_header.2.1
      (Error.wrong_method [Method.GET, Method.POST]) (by decide)
    rw [h]; decide
  · exact wrong_method_status_and_allow_header.2.2 (Error.from_status 404) (by decide)

/-- C2: when resolution finds a route set whose pattern matches the path
but which has no entry for the request method, a method belongs to the
returned allowed set exactly when some entry declares it and either the
pattern has no placeholders (the statically known full method set) or that
entry's placeholder values all parse from the captured segments; entries
whose parse fails are excluded. -/
theorem wrong_method_allowed_characterization
    (routes : List RouteSet) (m : Method) (path : String) (rs : RouteSet)
    (hfind : routes.find? (fun r => (segMatch r.pattern (splitPath path)).isSome) = some rs)
    (hnone : rs.entries.find? (fun e => e.method == m) = none) :
    ∃ allowed, resolve routes m path = .wrongMethod allowed ∧
      ∀ m', m' ∈ allowed ↔
        ∃ e, e ∈ rs.entries ∧ e.method = m' ∧
          (countCaptures rs.pattern = 0 ∨
            variantMatchesPath e.variant ((segMatch rs.pattern (splitPath path)).getD [])
              = true) := by
  refine ⟨findAccepted rs (splitPath path), ?_, ?_⟩
  · simp only [resolve, hfind, hnone]
  · intro m'
    by_cases h0 : countCaptures rs.pattern = 0
    · simp only [findAccepted, h0, beq_self_eq_true, if_true, List.mem_map, eq_self_iff_true,
        true_or, and_true]
    · have hb : (countCaptures rs.pattern == 0) = false := by
        simpa using h0
      simp only [findAccepted, hb, Bool.false_eq_true, if_false, List.mem_map, List.mem_filter]
      constructor
      · rintro ⟨e, ⟨he, hp⟩, hm⟩
        exact ⟨e, he, hm, Or.inr hp⟩
      · rintro ⟨e, he, hm, hor⟩
        rcases hor with h | hp
        · exact absurd h h0
        · exact ⟨e, ⟨he, hp⟩, hm⟩

/-- Witness for C2: on the shared `"/users/{id}"` table, `PUT /users/abc`
yields an allowed set containing exactly `POST` (whose `String` field
parses) and not `GET` (whose `u32` field rejects `"abc"`). -/
theorem wrong_method_allowed_characterization_witness :
    ∃ allowed, resolve sharedTable.routes Method.PUT "/users/abc" = .wrongMethod allowed ∧
      ∀ m', m' ∈ allowed ↔
        ∃ e, e ∈ sharedRS.entries ∧ e.method = m' ∧
          (countCaptures sharedRS.pattern = 0 ∨
            variantMatchesPath e.variant
              ((segMatch sharedRS.pattern (splitPath "/users/abc")).getD []) = true) :=
  wrong_method_allowed_characterization sharedTable.routes Method.PUT "/users/abc" sharedRS
    rfl rfl

/-- C3: when the path matches a pattern but not the method and a fallback
variant is declared, the dispatcher constructs the fallback from the
original request; a fallback failure carrying `WrongMethod(inner)` is
merged into `WrongMethod(outer ++ inner)` (outer accepted methods first),
any other fallback failure propagates unchanged, and a fallback success is
returned as is. -/
theorem fallback_wrong_method_merge
    (t : Table) (req : Request) (rs : RouteSet) (fb : VariantSpec)
    (hfb : t.fallback = some fb)
    (hfind : t.routes.find? (fun r => (segMatch r.pattern (splitPath req.path)).isSome)
        = some rs)
    (hnone : rs.entries.find? (fun e => e.method == req.method) = none) :
    (∀ inner, (constructVariant fb req []).2 = .error (.wrongMethod inner) →
      (fromRequest t req).2
        = .error (.wrongMethod (findAccepted rs (splitPath req.path) ++ inner))) ∧
    (∀ e, (constructVariant fb req []).2 = .error e → (∀ inner, e ≠ .wrongMethod inner) →
      (fromRequest t req).2 = .error e) ∧
    (∀ c, (constructVariant fb req []).2 = .ok c → (fromRequest t req).2 = .ok c) := by
  have hfr : (fromRequest t req).2 =
      match (constructVariant fb req []).2 with
      | .error (.wrongMethod inner) =>
        .error (.wrongMethod (findAccepted rs (splitPath req.path) ++ inner))
      | other => other := by
    simp only [fromRequest, hfind, hnone, hfb]
  refine ⟨?_, ?_, ?_⟩
  · intro inner h
    rw [hfr, h]
  · intro e h hne
    rw [hfr, h]
    cases e with
    | wrongMethod inner => exact absurd rfl (hne inner)
    | pathSegment => rfl
    | queryParam => rfl
    | noMatchingRoute => rfl
    | badBody => rfl
    | guardFail msg => rfl
  · intro c h
    rw [hfr, h]

/-- Witness for C3: `POST /x` against `fbTable` merges the outer `GET` with
the inner `PUT` into `WrongMethod([GET, PUT])`, outer first. -/
theorem fallback_wrong_method_merge_witness :
    (fromRequest fbTable reqPostX).2 = .error (.wrongMethod [Method.GET, Method.PUT]) :=
  (fallback_wrong_method_merge fbTable reqPostX xRS fbVariant rfl rfl rfl).1
    [Method.PUT] rfl

/-- C9: if a route set's entries are completed by the implicit-`HEAD` rule
and the declared entries have a `GET` route but no explicit `HEAD` route,
then a `HEAD` request whose path matches that route set constructs the
`GET` entry's variant (from the original request) instead of returning a
`WrongMethod` error. -/
theorem implicit_head_constructs_get_variant
    (t : Table) (req : Request) (rs : RouteSet) (entries0 : List Entry) (g : Entry)
    (hreq : req.method = Method.HEAD)
    (hfind : t.routes.find? (fun r => (segMatch r.pattern (splitPath req.path)).isSome)
        = some rs)
    (hentries : rs.entries = addImplicitHead entries0)
    (hget : entries0.find? (fun e => e.method == Method.GET) = some g)
    (hnohead : entries0.all (fun e => !(e.method == Method.HEAD)) = true) :
    fromRequest t req
      = constructVariant g.variant req ((segMatch rs.pattern (splitPath req.path)).getD []) := by
  have hnone0 : entries0.find? (fun e => e.method == Method.HEAD) = none := by
    rw [List.find?_eq_none]
    intro e he
    have := (List.all_eq_true.mp hnohead) e he
    simpa using this
  have hany : entries0.any (fun e => e.method == Method.HEAD) = false := by
    rw [List.any_eq_false]
    intro e he
    have := (List.all_eq_true.mp hnohead) e he
    simpa using this
  have hhead : rs.entries.find? (fun e => e.method == req.method)
      = some ⟨Method.HEAD, g.variant⟩ := by
    rw [hreq, hentries, addImplicitHead, hany, hget]
    simp only [Bool.false_eq_true, if_false, List.find?_append, hnone0, Option.none_or]
    rfl
  simp only [fromRequest, hfind, hhead]

/-- Witness for C9: `HEAD /users` on a table declaring only `GET /users`
constructs the `GET` variant. -/
theorem implicit_head_constructs_get_variant_witness :
    fromRequest headTable reqHeadUsers = ([], .ok ⟨2, []⟩) :=
  implicit_head_constructs_get_variant headTable reqHeadUsers headRS
    [⟨Method.GET, unitVariant⟩] ⟨Method.GET, unitVariant⟩ rfl rfl rfl rfl rfl

/-- C10: if the selected variant declares a query-params field and the
request URI has no query string, query decoding runs on the empty string
rather than aborting; with an `Option`-typed field it decodes to `None` and
the pipeline continues into the guard and tail stages with the field bound
to `None`. -/
theorem empty_query_decodes_to_none
    (v : VariantSpec) (req : Request) (caps : List String)
    (pf : List (String × Val)) (nm : String) (inner : String → Option Val)
    (hquery : req.query = none)
    (hdec : v.queryDecoder = some (nm, optionQueryDecoder inner))
    (hph : phStage v caps = .ok pf) :
    rawQuery req = "" ∧
    queryStage v req = .ok [(nm, Val.vNone)] ∧
    constructVariant v req caps =
      (match runGuards v.guards req.head 0 with
       | (gevs, .error e) => (phEvents v ++ [Event.queryDecode] ++ gevs, .error e)
       | (gevs, .ok gFields) =>
         match tailStage v req with
         | (tevs, .error e) => (phEvents v ++ [Event.queryDecode] ++ gevs ++ tevs, .error e)
         | (tevs, .ok tFields) =>
           (phEvents v ++ [Event.queryDecode] ++ gevs ++ tevs,
            .ok ⟨v.variantId, pf ++ [(nm, Val.vNone)] ++ gFields ++ tFields⟩)) := by
  have hraw : rawQuery req = "" := by
    simp [rawQuery, hquery]
  have hqs : queryStage v req = .ok [(nm, Val.vNone)] := by
    simp [queryStage, hdec, hraw, optionQueryDecoder]
  have hqe : queryEvents v = [Event.queryDecode] := by
    simp [queryEvents, hdec]
  refine ⟨hraw, hqs, ?_⟩
  simp only [constructVariant, hph, hqs, hqe]

/-- Witness for C10: with no query string the decoder runs on `""`, the
field decodes to `None`, and construction succeeds. -/
theorem empty_query_decodes_to_none_witness :
    rawQuery reqNoQuery = "" ∧
    queryStage queryVariant reqNoQuery = .ok [("pagination", Val.vNone)] ∧
    constructVariant queryVariant reqNoQuery []
      = ([Event.queryDecode], .ok ⟨3, [("pagination", Val.vNone)]⟩) :=
  empty_query_decodes_to_none queryVariant reqNoQuery [] [] "pagination" (fun _ => none)
    rfl rfl rfl

/-- Inversion of a literal-segment match: the path segment equals the
literal and the rest matches. -/
theorem segMatch_literal_cons {l : String} {ps : Pattern} {s : String} {ss caps : List String}
    (h : segMatch (.literal l :: ps) (s :: ss) = some caps) :
    s = l ∧ segMatch ps ss = some caps := by
  by_cases hsl : s = l
  · rw [segMatch, if_pos hsl] at h
    exact ⟨hsl, h⟩
  · rw [segMatch, if_neg hsl] at h
    cases h

/-- Inversion of a placeholder-segment match: the segment is non-empty and
the rest matches with some captures. -/
theorem segMatch_placeholder_cons {n : String} {ps : Pattern} {s : String} {ss caps : List String}
    (h : segMatch (.placeholder n :: ps) (s :: ss) = some caps) :
    s ≠ "" ∧ ∃ caps0, segMatch ps ss = some caps0 := by
  by_cases hse : s = ""
  · rw [segMatch, if_pos hse] at h
    cases h
  · rw [segMatch, if_neg hse] at h
    rcases Option.map_eq_some'.mp h with ⟨caps0, hc, _⟩
    exact ⟨hse, caps0, hc⟩

/-- Soundness of the pairwise overlap test: if some path matches both
patterns, the test reports an overlap. Contrapositively, a pattern pair the
checker deems safe can never both match one path. -/
theorem overlaps_of_both_match :
    ∀ (segs : List String) (p q : Pattern) (capsP capsQ : List String),
      segMatch p segs = some capsP → segMatch q segs = some capsQ →
      overlaps p q = true := by
  intro segs
  induction segs with
  | nil =>
    intro p q capsP capsQ hp hq
    cases p with
    | nil =>
      cases q with
      | nil => rfl
      | cons sq qs => cases sq <;> rw [segMatch] at hq <;> cases hq
    | cons sp ps => cases sp <;> rw [segMatch] at hp <;> cases hp
  | cons s ss ih =>
    intro p q capsP capsQ hp hq
    cases p with
    | nil => rw [segMatch] at hp; cases hp
    | cons sp ps =>
      cases q with
      | nil => rw [segMatch] at hq; cases hq
      | cons sq qs =>
        cases sp with
        | catchAll np => cases sq <;> rfl
        | literal a =>
          obtain ⟨hsa, hp0⟩ := segMatch_literal_cons hp
          cases sq with
          | catchAll nq => rfl
          | literal b =>
            obtain ⟨hsb, hq0⟩ := segMatch_literal_cons hq
            rw [overlaps, Bool.and_eq_true]
            refine ⟨?_, ih ps qs _ _ hp0 hq0⟩
            rw [← hsa, ← hsb]
            simp
          | placeholder nq =>
            obtain ⟨-, caps0, hq0⟩ := segMatch_placeholder_cons hq
            rw [overlaps]
            exact ih ps qs _ _ hp0 hq0
        | placeholder np =>
          obtain ⟨-, capsP0, hp0⟩ := segMatch_placeholder_cons hp
          cases sq with
          | catchAll nq => rfl
          | literal b =>
            obtain ⟨hsb, hq0⟩ := segMatch_literal_cons hq
            rw [overlaps]
            exact ih ps qs _ _ hp0 hq0
          | placeholder nq =>
            obtain ⟨-, caps0, hq0⟩ := segMatch_placeholder_cons hq
            rw [overlaps]
            exact ih ps qs _ _ hp0 hq0

/-- C4: for every table accepted by the overlap checker and every request
path, at most one declared route pattern structurally matches the path. -/
theorem at_most_one_pattern_matches
    (routes : List RouteSet)
    (hok : checkOverlapList routes = true)
    (segs : List String) :
    routes.countP (fun rs => (segMatch rs.pattern segs).isSome) ≤ 1 := by
  induction routes with
  | nil => simp
  | cons rs rest ih =>
    rw [checkOverlapList, Bool.and_eq_true] at hok
    rw [List.countP_cons]
    by_cases hm : (segMatch rs.pattern segs).isSome
    · have hzero : rest.countP (fun r => (segMatch r.pattern segs).isSome) = 0 := by
        rw [List.countP_eq_zero]
        intro r hr hmr
        obtain ⟨capsP, hcapsP⟩ := Option.isSome_iff_exists.mp hm
        obtain ⟨capsQ, hcapsQ⟩ := Option.isSome_iff_exists.mp (by simpa using hmr)
        have hov := overlaps_of_both_match segs rs.pattern r.pattern capsP capsQ hcapsP hcapsQ
        have hno := (List.all_eq_true.mp hok.1) r hr
        rw [hov] at hno
        cases hno
      rw [hzero]
      simp [hm]
    · rw [if_neg hm, Nat.add_zero]
      exact ih hok.2

/-- Witness for C4: the checker accepts the two-literal table and the path
`/a` matches at most one of its patterns. -/
theorem at_most_one_pattern_matches_witness :
    checkOverlapList twoRoutes = true ∧
    twoRoutes.countP (fun rs => (segMatch rs.pattern ["a"]).isSome) ≤ 1 :=
  ⟨by decide, at_most_one_pattern_matches twoRoutes (by decide) ["a"]⟩

/-- If every guard succeeds, the guard chain emits one `guardRun` event per
guard, in index order, and produces the guard fields. -/
theorem runGuards_all_ok (h : ReqHead) :
    ∀ (gs : List GuardSpec) (i : Nat), (∀ g ∈ gs, ∃ val, g.run h = .ok val) →
      ∃ fields, runGuards gs h i = ((List.range' i gs.length).map Event.guardRun, .ok fields) := by
  intro gs
  induction gs with
  | nil =>
    intro i _
    exact ⟨[], rfl⟩
  | cons g rest ih =>
    intro i hok
    obtain ⟨val, hval⟩ := hok g (by simp)
    obtain ⟨fields, hf⟩ := ih (i + 1) (fun g0 hg0 => hok g0 (by simp [hg0]))
    refine ⟨(g.name, val) :: fields, ?_⟩
    rw [runGuards, hval, hf]
    simp only [List.range']
    exact Prod.ext rfl rfl

/-- If the guards up to some position succeed and that position's guard
fails, the guard chain emits exactly the events of the executed prefix
(in index order) and aborts with the failing guard's error. -/
theorem runGuards_first_fail (g : GuardSpec) (gs2 : List GuardSpec) (h : ReqHead) (e : HError)
    (hf : g.run h = .error e) :
    ∀ (gs1 : List GuardSpec) (i : Nat), (∀ g0 ∈ gs1, ∃ val, g0.run h = .ok val) →
      runGuards (gs1 ++ g :: gs2) h i
        = ((List.range' i (gs1.length + 1)).map Event.guardRun, .error e) := by
  intro gs1
  induction gs1 with
  | nil =>
    intro i _
    rw [List.nil_append, runGuards, hf]
    simp [List.range']
  | cons gh rest ih =>
    intro i hok
    obtain ⟨val, hval⟩ := hok gh (by simp)
    have hr := ih (i + 1) (fun g0 hg0 => hok g0 (by simp [hg0]))
    rw [List.cons_append, runGuards, hval, hr]
    simp only [List.range']
    exact Prod.ext rfl rfl

/-- C5: once placeholder parsing and query decoding have succeeded, the
declared guards run strictly in declaration order, after the path and query
events and before the body/forward stage; if a guard fails, the pipeline
aborts with that guard's error, having run exactly the guards up to and
including it — later guards, body decoding and forwarding never run. -/
theorem guards_run_in_declaration_order
    (v : VariantSpec) (req : Request) (caps : List String)
    (pf qf : List (String × Val))
    (hph : phStage v caps = .ok pf) (hq : queryStage v req = .ok qf) :
    (∀ (gs1 : List GuardSpec) (g : GuardSpec) (gs2 : List GuardSpec) (e : HError),
      v.guards = gs1 ++ g :: gs2 →
      (∀ g0 ∈ gs1, ∃ val, g0.run req.head = .ok val) →
      g.run req.head = .error e →
      constructVariant v req caps
        = (phEvents v ++ queryEvents v ++ (List.range (gs1.length + 1)).map Event.guardRun,
           .error e)) ∧
    ((∀ g ∈ v.guards, ∃ val, g.run req.head = .ok val) →
      (constructVariant v req caps).1
        = phEvents v ++ queryEvents v ++ (List.range v.guards.length).map Event.guardRun
            ++ (tailStage v req).1) := by
  constructor
  · intro gs1 g gs2 e hsplit hok hfail
    have hrg := runGuards_first_fail g gs2 req.head e hfail gs1 0 hok
    rw [← hsplit] at hrg
    rw [List.range_eq_range']
    simp only [constructVariant, hph, hq, hrg]
  · intro hok
    obtain ⟨fields, hrg⟩ := runGuards_all_ok req.head v.guards 0 hok
    rw [List.range_eq_range']
    simp only [constructVariant, hph, hq, hrg]
    rcases ht : tailStage v req with ⟨tevs, tres⟩
    cases tres <;> simp

/-- Witness for C5: with guards `[okGuard, badGuard]`, construction runs
guard 0 then guard 1 and aborts with guard 1's error; the body stage never
runs. -/
theorem guards_run_in_declaration_order_witness :
    constructVariant guardedVariant reqGuard []
      = ([Event.guardRun 0, Event.guardRun 1], .error (.guardFail "denied")) :=
  (guards_run_in_declaration_order guardedVariant reqGuard [] [] [] rfl rfl).1
    [okGuard] badGuard [] (.guardFail "denied") rfl
    (by
      intro g0 hg0
      rw [List.mem_singleton] at hg0
      subst hg0
      exact ⟨Val.vUnit, rfl⟩)
    rfl

end Hyperdrive
